import Mathlib

/-!
Shallow embedding of the Veritas claim-falsification engine
(src/veritas: truth.py, evidence.py, engine.py, falsification.py,
testing.py) and proofs of the specification's testable properties.

Values are modelled by an inductive `Val` (rational numbers and strings)
with decidable equality mirroring Python `==` on those values
(numbers compare numerically, a number never equals a string).
The external symbolic library (sympy) is out of scope of the repository;
per the specification it is consumed only through its adapter contract
(symbol interning, formula construction, substitution, simplify-to-boolean),
which is modelled here by `Formula.subst` / `Formula.simplifyToBool`.
-/

namespace Veritas

/-- Concrete runtime values bound by evidence. -/
inductive Val where
  | num (q : ℚ)
  | str (s : String)
deriving DecidableEq, Repr

/-- Rendering of a value for trace and reasoning strings. -/
def Val.render : Val → String
  | .num q => toString q
  | .str s => s

/-- The five comparison directions of `Probabilistic.direction`:
greater, greater-or-equal, less, less-or-equal, equal. -/
inductive RelOp where
  | gt
  | ge
  | lt
  | le
  | eq
deriving DecidableEq, Repr

/-- Rendering of a comparison direction, as the Python string literal. -/
def RelOp.render : RelOp → String
  | .gt => ">"
  | .ge => ">="
  | .lt => "<"
  | .le => "<="
  | .eq => "="

/-- Term-level expressions appearing in falsification formulas:
either a concrete value or a free symbol (sympy `Symbol(name)`). -/
inductive Expr where
  | const (v : Val)
  | var (name : String)
deriving DecidableEq, Repr

/-- Formulas built by the four truth variants (sympy `Ne`, relational,
`Not`, and the uninterpreted `Contradicts` function of Empirical). -/
inductive Formula where
  | ne (a b : Expr)
  | rel (op : RelOp) (a b : Expr)
  | not (f : Formula)
  | contradicts (a : Expr)
deriving DecidableEq, Repr

/-- Free symbol names of an expression. -/
def Expr.freeVars : Expr → List String
  | .const _ => []
  | .var n => [n]

/-- Free symbol names of a formula (sympy `free_symbols`). -/
def Formula.freeVars : Formula → List String
  | .ne a b => a.freeVars ++ b.freeVars
  | .rel _ a b => a.freeVars ++ b.freeVars
  | .not f => f.freeVars
  | .contradicts a => a.freeVars

/-- Rendering of an expression. -/
def Expr.render : Expr → String
  | .const v => v.render
  | .var n => n

/-- Rendering of a formula, for trace and reasoning strings. -/
def Formula.render : Formula → String
  | .ne a b => a.render ++ " != " ++ b.render
  | .rel op a b => a.render ++ " " ++ op.render ++ " " ++ b.render
  | .not f => "Not(" ++ f.render ++ ")"
  | .contradicts a => "Contradicts(" ++ a.render ++ ")"

/-- Substitution of a concrete value for a symbol in an expression
(adapter contract `substitute`). -/
def Expr.subst (x : String) (v : Val) : Expr → Expr
  | .const c => .const c
  | .var n => if n = x then .const v else .var n

/-- Substitution of a concrete value for a symbol in a formula
(sympy `formula.subs(symbol, value)`). -/
def Formula.subst (x : String) (v : Val) : Formula → Formula
  | .ne a b => .ne (a.subst x v) (b.subst x v)
  | .rel op a b => .rel op (a.subst x v) (b.subst x v)
  | .not f => .not (f.subst x v)
  | .contradicts a => .contradicts (a.subst x v)

/-- Evaluation of a comparison on concrete values.  Ordering comparisons
are defined on numbers only (Python raises `TypeError` on mixed
comparisons, which the engines catch, modelled as `none`); equality is
defined on all values. -/
def RelOp.eval : RelOp → Val → Val → Option Bool
  | .eq, a, b => some (a = b)
  | .gt, .num a, .num b => some (a > b)
  | .ge, .num a, .num b => some (a ≥ b)
  | .lt, .num a, .num b => some (a < b)
  | .le, .num a, .num b => some (a ≤ b)
  | _, _, _ => none

/-- Evaluation of a closed expression to a value. -/
def Expr.evalClosed : Expr → Option Val
  | .const v => some v
  | .var _ => none

/-- Adapter contract `simplifyToBoolean`: reduce a formula to a boolean
when every comparison has both sides concrete (numeric equality by value
comparison); `none` when the result cannot be determined, in particular
for any formula still containing a free symbol or the uninterpreted
`Contradicts` relation. -/
def Formula.simplifyToBool : Formula → Option Bool
  | .ne a b =>
      match a.evalClosed, b.evalClosed with
      | some va, some vb => some (va ≠ vb)
      | _, _ => none
  | .rel op a b =>
      match a.evalClosed, b.evalClosed with
      | some va, some vb => op.eval va vb
      | _, _ => none
  | .not f => (f.simplifyToBool).map (fun b => !b)
  | .contradicts _ => none

/-- Verdict of a falsification attempt (evidence.py `Verdict`). -/
inductive Verdict where
  | killed
  | survived
  | uncertain
deriving DecidableEq, Repr

/-- Rendering of a verdict, as its Python enum value string. -/
def Verdict.render : Verdict → String
  | .killed => "KILLED"
  | .survived => "SURVIVED"
  | .uncertain => "UNCERTAIN"

/-- Evidence (evidence.py `Evidence`): bindings from variable names to
concrete values, with a free-text source.  Python stores them in a dict;
modelled as an association list where lookup takes the first match. -/
structure Evidence where
  bindings : List (String × Val)
  source : String := ""
deriving DecidableEq, Repr

/-- Lookup of a binding by name (Python `evidence.bindings[name]` /
`.get(name)`). -/
def lookupVar (bs : List (String × Val)) (n : String) : Option Val :=
  match bs with
  | [] => none
  | (k, v) :: rest => if k = n then some v else lookupVar rest n

/-- Rendering of evidence bindings for trace strings. -/
def renderBindings (bs : List (String × Val)) : String :=
  String.intercalate ", " (bs.map (fun p => p.1 ++ ": " ++ p.2.render))

/-- Falsification form (truth.py `FalsificationForm`): formula, free
symbols requiring binding, and a human-readable description. -/
structure FalsificationForm where
  formula : Formula
  free_symbols : List String
  description : String
deriving DecidableEq, Repr

/-- Complete verification result (evidence.py `VerdictResult`). -/
structure VerdictResult where
  verdict : Verdict
  form : Option FalsificationForm := none
  evidence : Option Evidence := none
  trace : List String := []
  reasoning : String := ""
deriving DecidableEq, Repr

/-- Analytic truth (truth.py `Analytic`): equality claim `lhs = rhs`,
falsified by `lhs ≠ rhs`.  `lhs` is the variable name of the computed
value, `rhs` the expected concrete value, `var_name` a documentation-only
name used in the form description. -/
structure Analytic where
  statement : String
  lhs : String
  rhs : Val
  var_name : String := "x"

/-- Analytic falsification form: `Ne(lhs, rhs)` (truth.py lines 130-145). -/
def Analytic.falsify (t : Analytic) : FalsificationForm :=
  let formula := Formula.ne (.var t.lhs) (.const t.rhs)
  { formula := formula
    free_symbols := formula.freeVars
    description := "Find " ++ t.var_name ++ " where " ++ t.lhs ++ " != " ++ t.rhs.render }

/-- Modal truth (truth.py `Modal`): invariant claim over a state
variable, falsified by a state violating the invariant. -/
structure Modal where
  statement : String
  invariant : Formula
  state_var : String := "state"

/-- Modal falsification form: `Not(invariant)` (truth.py lines 178-191). -/
def Modal.falsify (t : Modal) : FalsificationForm :=
  let formula := Formula.not t.invariant
  { formula := formula
    free_symbols := formula.freeVars
    description := "Find " ++ t.state_var ++ " where Not(" ++ t.invariant.render ++ ")" }

/-- Empirical truth (truth.py `Empirical`): observation-based claim with
an optional expected predicate.  The predicate is user-supplied Python
code and may raise, modelled by `Except String Bool`. -/
structure Empirical where
  statement : String
  observation_var : String := "observation"
  expected_predicate : Option (Val → Except String Bool) := none
  contradiction_description : String := ""

/-- Empirical falsification form: the uninterpreted symbolic relation
`Contradicts(observation_var)` (truth.py lines 228-245). -/
def Empirical.falsify (t : Empirical) : FalsificationForm :=
  let formula := Formula.contradicts (.var t.observation_var)
  { formula := formula
    free_symbols := formula.freeVars
    description :=
      if t.contradiction_description ≠ "" then t.contradiction_description
      else "Find " ++ t.observation_var ++ " that contradicts claim" }

/-- Empirical predicate check (truth.py lines 247-259): with no expected
predicate every observation is accepted, otherwise the predicate decides. -/
def Empirical.check_observation (t : Empirical) (value : Val) : Except String Bool :=
  match t.expected_predicate with
  | none => .ok true
  | some p => p value

/-- Probabilistic truth (truth.py `Probabilistic`): threshold claim
`metric <direction> threshold`. -/
structure Probabilistic where
  statement : String
  metric : String := "value"
  threshold : ℚ := 1/2
  direction : RelOp := .gt

/-- Probabilistic falsification form: `Not(metric <direction> threshold)`
(truth.py lines 293-320). -/
def Probabilistic.falsify (t : Probabilistic) : FalsificationForm :=
  let expected := Formula.rel t.direction (.var t.metric) (.const (.num t.threshold))
  let formula := Formula.not expected
  { formula := formula
    free_symbols := formula.freeVars
    description :=
      "Find " ++ t.metric ++ " where Not(" ++ t.metric ++ " "
        ++ t.direction.render ++ " " ++ toString t.threshold ++ ")" }

/-- Probabilistic threshold check (truth.py lines 322-341): compare the
measured value against the threshold in the claimed direction. -/
def Probabilistic.check_threshold (t : Probabilistic) (value : ℚ) : Bool :=
  match t.direction with
  | .gt => value > t.threshold
  | .ge => value ≥ t.threshold
  | .lt => value < t.threshold
  | .le => value ≤ t.threshold
  | .eq => value = t.threshold

/-- Probabilistic threshold check applied to a runtime value: Python
comparison of a non-number against a float raises `TypeError`, modelled
as an `Except.error`. -/
def Probabilistic.check_threshold_val (t : Probabilistic) (value : Val) : Except String Bool :=
  match value with
  | .num q => .ok (t.check_threshold q)
  | .str s => .error ("unsupported comparison for value: " ++ s)

/-- Tagged union of the four truth variants (truth.py `Truth` protocol). -/
inductive Truth where
  | analytic (t : Analytic)
  | modal (t : Modal)
  | empirical (t : Empirical)
  | probabilistic (t : Probabilistic)

/-- Human-readable statement of a truth. -/
def Truth.statement : Truth → String
  | .analytic t => t.statement
  | .modal t => t.statement
  | .empirical t => t.statement
  | .probabilistic t => t.statement

/-- Falsification-form construction, dispatched over the variants. -/
def Truth.falsify : Truth → FalsificationForm
  | .analytic t => t.falsify
  | .modal t => t.falsify
  | .empirical t => t.falsify
  | .probabilistic t => t.falsify

/-- Check-method lookup (Python `getattr(truth, predicate_name, None)` in
`Verifier.verify_with_predicate`): Empirical exposes `check_observation`,
Probabilistic exposes `check_threshold`; any other (variant, name) pair
has no check method. -/
def Truth.getPredicate : Truth → String → Option (Val → Except String Bool)
  | .empirical t, "check_observation" => some t.check_observation
  | .probabilistic t, "check_threshold" => some t.check_threshold_val
  | _, _ => none

/-- Rendering of a boolean as Python prints it. -/
def renderBool : Bool → String
  | true => "True"
  | false => "False"

/-- Rendering of an optional boolean as Python prints it. -/
def renderOptBool : Option Bool → String
  | some b => renderBool b
  | none => "None"

/-- Comma-separated list of names. -/
def fmtNames : List String → String
  | [] => ""
  | [n] => n
  | n :: rest => n ++ ", " ++ fmtNames rest

/-- Rendering of a set of names in braces, as Python prints a set. -/
def fmtSet (names : List String) : String :=
  "\x7b" ++ fmtNames names ++ "\x7d"

/-- Free variables of the form with no corresponding binding in the
evidence (engine.py lines 221-224 and falsification.py lines 112-116;
Python collects them into a set, modelled by a deduplicated list). -/
def missingVars (form : FalsificationForm) (ev : Evidence) : List String :=
  (form.free_symbols.filter (fun n => (lookupVar ev.bindings n).isNone)).dedup

/-- Substitution of every evidence binding into a form's formula, one
`subs` call per binding (engine.py `Verifier.substitute`, lines 46-64,
and the line-identical falsification.py `_substitute`, lines 33-38). -/
def substituteEv (form : FalsificationForm) (ev : Evidence) : Formula :=
  ev.bindings.foldl (fun acc p => acc.subst p.1 p.2) form.formula

/-- Evaluation of a substituted formula to a boolean via the adapter's
simplify-to-boolean contract (engine.py `Verifier.evaluate`, lines
66-126, and the line-identical falsification.py `_evaluate`, lines
41-80: simplify, recognize explicit booleans, and compare by value any
equality, inequality or relational expression whose sides are concrete). -/
def evaluateSub (substituted : Formula) : Option Bool :=
  substituted.simplifyToBool

/-- Verification engine (engine.py `Verifier`). -/
structure Verifier where
  strict : Bool := false

/-- Direct-evaluation fast path (engine.py
`Verifier._evaluate_falsification_directly`, lines 128-186): for
Analytic, look up the bound value of `lhs` and compare against `rhs`
(`some true` = falsified / KILLED, `some false` = SURVIVED); for Modal,
substitute the bound state value into the invariant and simplify; for
the other variants, no decision (`none`). -/
def Verifier.evalDirect (truth : Truth) (ev : Evidence) : Option Bool :=
  match truth with
  | .analytic t =>
      match lookupVar ev.bindings t.lhs with
      | some actual => if actual ≠ t.rhs then some true else some false
      | none => none
  | .modal t =>
      match lookupVar ev.bindings t.state_var with
      | some stateVal =>
          let substituted := t.invariant.subst t.state_var stateVal
          match substituted.simplifyToBool with
          | some b => some (!b)
          | none => none
      | none => none
  | .empirical _ => none
  | .probabilistic _ => none

/-- Complete verification (engine.py `Verifier.verify`, lines 188-261):
construct the form, check evidence completeness, attempt the direct
fast path, else substitute and evaluate symbolically, and derive the
verdict, appending a trace entry at every step. -/
def Verifier.verify (_vf : Verifier) (truth : Truth) (ev : Evidence) : VerdictResult :=
  let form := truth.falsify
  let trace0 : List String :=
    [ "Constructing falsification form for: " ++ truth.statement
    , "Falsification form: " ++ form.description
    , "Evidence bindings: " ++ renderBindings ev.bindings ]
  let missing := missingVars form ev
  if missing ≠ [] then
    { verdict := .uncertain
      form := some form
      evidence := some ev
      trace := trace0 ++ ["Cannot evaluate: missing " ++ fmtSet missing]
      reasoning := "Missing evidence for: " ++ fmtSet missing }
  else
    match Verifier.evalDirect truth ev with
    | some direct =>
        { verdict := if direct then .killed else .survived
          form := some form
          evidence := some ev
          trace := trace0 ++ ["Direct evaluation result: " ++ renderBool direct]
          reasoning :=
            if direct then "Falsification condition met: " ++ form.description
            else "Falsification condition not met with given evidence" }
    | none =>
        let substituted := substituteEv form ev
        let evalRes := evaluateSub substituted
        { verdict :=
            match evalRes with
            | some true => .killed
            | some false => .survived
            | none => .uncertain
          form := some form
          evidence := some ev
          trace := trace0 ++
            [ "Substituted formula: " ++ substituted.render
            , "Evaluation result: " ++ renderOptBool evalRes ]
          reasoning :=
            match evalRes with
            | some true => "Falsification condition met: " ++ form.description
            | some false => "Falsification condition not met with given evidence"
            | none => "Could not evaluate formula: " ++ substituted.render }

/-- Purely symbolic verification (falsification.py `falsify`, lines
83-140): identical pipeline to `Verifier.verify` except that no direct
fast path is attempted — substitution and adapter evaluation always run. -/
def falsifyRun (truth : Truth) (ev : Evidence) : VerdictResult :=
  let form := truth.falsify
  let trace0 : List String :=
    [ "Constructing falsification form for: " ++ truth.statement
    , "Falsification form: " ++ form.description
    , "Evidence bindings: " ++ renderBindings ev.bindings ]
  let missing := missingVars form ev
  if missing ≠ [] then
    { verdict := .uncertain
      form := some form
      evidence := some ev
      trace := trace0 ++ ["Cannot evaluate: missing " ++ fmtSet missing]
      reasoning := "Missing evidence for: " ++ fmtSet missing }
  else
    let substituted := substituteEv form ev
    let evalRes := evaluateSub substituted
    { verdict :=
        match evalRes with
        | some true => .killed
        | some false => .survived
        | none => .uncertain
      form := some form
      evidence := some ev
      trace := trace0 ++
        [ "Substituted formula: " ++ substituted.render
        , "Evaluation result: " ++ renderOptBool evalRes ]
      reasoning :=
        match evalRes with
        | some true => "Falsification condition met: " ++ form.description
        | some false => "Falsification condition not met with given evidence"
        | none => "Could not evaluate formula: " ++ substituted.render }

/-- Predicate-based verification (engine.py
`Verifier.verify_with_predicate`, lines 263-309): look up the named
check method on the truth; absent means UNCERTAIN; a true result means
SURVIVED, false means KILLED, and an exception is caught, its message
embedded in the reasoning, yielding UNCERTAIN. -/
def Verifier.verify_with_predicate (_vf : Verifier) (truth : Truth) (value : Val)
    (predicate_name : String) : VerdictResult :=
  let trace0 : List String :=
    ["Checking " ++ truth.statement ++ " with value: " ++ value.render]
  match truth.getPredicate predicate_name with
  | none =>
      { verdict := .uncertain
        evidence := some { bindings := [("value", value)] }
        trace := trace0
        reasoning := "Truth has no " ++ predicate_name ++ " method" }
  | some predicate =>
      let form := truth.falsify
      match predicate value with
      | .ok check_result =>
          { verdict := if check_result then .survived else .killed
            form := some form
            evidence := some { bindings := [("value", value)] }
            trace := trace0 ++ ["Predicate result: " ++ renderBool check_result]
            reasoning :=
              if check_result then "Value " ++ value.render ++ " satisfies predicate"
              else "Value " ++ value.render ++ " violates predicate: " ++ form.description }
      | .error e =>
          { verdict := .uncertain
            form := some form
            evidence := some { bindings := [("value", value)] }
            trace := trace0
            reasoning := "Predicate evaluation failed: " ++ e }

/-- Possible returns of a function wrapped by the `verified` decorator
(testing.py lines 149-153): `None`, a bindings mapping, or a single
value coerced to a binding named `result`. -/
inductive FuncReturn where
  | retNone
  | retDict (bs : List (String × Val))
  | retSingle (v : Val)

/-- Coercion of a wrapped function's return into evidence bindings
(testing.py lines 149-153). -/
def coerceBindings : FuncReturn → List (String × Val)
  | .retNone => []
  | .retDict bs => bs
  | .retSingle v => [("result", v)]

/-- Wrapper installed by the `verified` decorator (testing.py `verified`,
lines 139-177): build the truth from its factory, construct a fresh
default `Verifier()`, run the wrapped function (its return value is the
argument here), coerce the bindings, verify, raise an `AssertionError`
on KILLED, raise on UNCERTAIN only if the freshly constructed verifier
is strict, and otherwise return the result object.  An `AssertionError`
is modelled as `Except.error` carrying the message. -/
def verifiedWrapper (truth : Truth) (funcName : String) (ret : FuncReturn) :
    Except String VerdictResult :=
  let verifier : Verifier := {}
  let bindings := coerceBindings ret
  let ev : Evidence := { bindings := bindings, source := "test function: " ++ funcName }
  let result := verifier.verify truth ev
  if result.verdict = .killed then
    .error ("Claim KILLED: " ++ truth.statement
      ++ "\nReasoning: " ++ result.reasoning
      ++ "\nEvidence: " ++ renderBindings ev.bindings)
  else if result.verdict = .uncertain ∧ verifier.strict then
    .error ("Claim UNCERTAIN: " ++ truth.statement
      ++ "\nReasoning: " ++ result.reasoning)
  else
    .ok result

/-- Handle yielded by the scoped claim tracker (testing.py
`ClaimContext`): the truth, the evidence accumulated so far, the result
set on scope exit, and the context's own default verifier. -/
structure ClaimContext where
  truth : Truth
  evidence : Evidence
  result : Option VerdictResult
  verifier : Verifier

/-- Scoped claim tracker (testing.py `claim`, lines 92-118): open a
context with empty evidence, run the block — modelled as a function from
the initial evidence to the accumulated evidence together with an
optional raised exception — and on exit, normal or exceptional, run
verification once over the accumulated evidence, store the result on
the handle, and let any exception propagate to the caller. -/
def runClaim (truth : Truth) (body : Evidence → Evidence × Option String) :
    ClaimContext × Option String :=
  let vf : Verifier := {}
  let ev0 : Evidence := { bindings := [] }
  let (finalEv, exc) := body ev0
  let result := vf.verify truth finalEv
  ({ truth := truth, evidence := finalEv, result := some result, verifier := vf }, exc)

/-- Application of an expression transformation at every leaf of a
formula; used to reason about iterated substitution. -/
def Formula.mapExpr (g : Expr → Expr) : Formula → Formula
  | .ne a b => .ne (g a) (g b)
  | .rel op a b => .rel op (g a) (g b)
  | .not f => .not (f.mapExpr g)
  | .contradicts a => .contradicts (g a)

/-- Iterated substitution of a binding list into an expression, in list
order, mirroring the engines' substitution loop at the leaf level. -/
def foldSubstE (l : List (String × Val)) (a : Expr) : Expr :=
  l.foldl (fun acc p => acc.subst p.1 p.2) a

/-! ### Substitution lemmas -/

theorem Formula.subst_def (x : String) (v : Val) (f : Formula) :
    f.subst x v = f.mapExpr (Expr.subst x v) := by
  induction f with
  | ne a b => rfl
  | rel op a b => rfl
  | not f ih => simp [Formula.subst, Formula.mapExpr, ih]
  | contradicts a => rfl

theorem Formula.mapExpr_id (f : Formula) : f.mapExpr (fun a => a) = f := by
  induction f <;> simp [Formula.mapExpr, *]

theorem Formula.mapExpr_comp (g h : Expr → Expr) (f : Formula) :
    (f.mapExpr h).mapExpr g = f.mapExpr (fun a => g (h a)) := by
  induction f <;> simp [Formula.mapExpr, *]

theorem foldSubstE_cons (p : String × Val) (rest : List (String × Val)) (a : Expr) :
    foldSubstE (p :: rest) a = foldSubstE rest (a.subst p.1 p.2) := rfl

theorem foldl_subst_eq_mapExpr (l : List (String × Val)) (f : Formula) :
    l.foldl (fun acc p => acc.subst p.1 p.2) f = f.mapExpr (foldSubstE l) := by
  induction l generalizing f with
  | nil =>
      have hid : foldSubstE [] = fun a => a := funext fun _ => rfl
      simp [hid, Formula.mapExpr_id]
  | cons p rest ih =>
      have hstep : foldSubstE (p :: rest) = fun a => foldSubstE rest (a.subst p.1 p.2) :=
        funext fun a => rfl
      simp only [List.foldl_cons]
      rw [ih, Formula.subst_def, Formula.mapExpr_comp, hstep]

theorem substituteEv_eq_mapExpr (form : FalsificationForm) (ev : Evidence) :
    substituteEv form ev = form.formula.mapExpr (foldSubstE ev.bindings) :=
  foldl_subst_eq_mapExpr ev.bindings form.formula

theorem foldSubstE_const (l : List (String × Val)) (c : Val) :
    foldSubstE l (.const c) = .const c := by
  induction l with
  | nil => rfl
  | cons p rest ih => rw [foldSubstE_cons]; exact ih

theorem foldSubstE_var (l : List (String × Val)) (x : String) :
    foldSubstE l (.var x) =
      (match lookupVar l x with
       | some v => Expr.const v
       | none => Expr.var x) := by
  induction l with
  | nil => rfl
  | cons p rest ih =>
      obtain ⟨k, v⟩ := p
      rw [foldSubstE_cons]
      by_cases h : k = x
      · subst h
        simp [Expr.subst, lookupVar, foldSubstE_const]
      · have h' : ¬(x = k) := fun hx => h hx.symm
        simp [Expr.subst, lookupVar, h, h', ih]

/-! ### Closedness lemmas -/

theorem simplifyToBool_some_closed (f : Formula) (b : Bool)
    (h : f.simplifyToBool = some b) : f.freeVars = [] := by
  induction f generalizing b with
  | ne a c =>
      cases a <;> cases c <;>
        simp_all [Formula.simplifyToBool, Expr.evalClosed, Formula.freeVars, Expr.freeVars]
  | rel op a c =>
      cases a <;> cases c <;>
        simp_all [Formula.simplifyToBool, Expr.evalClosed, Formula.freeVars, Expr.freeVars]
  | not f ih =>
      simp only [Formula.simplifyToBool, Option.map_eq_some'] at h
      obtain ⟨b', hb', _⟩ := h
      simpa [Formula.freeVars] using ih b' hb'
  | contradicts a =>
      simp [Formula.simplifyToBool] at h

theorem foldSubstE_of_subst_closed (l : List (String × Val)) (sv : String) (v : Val)
    (hl : lookupVar l sv = some v) (a : Expr)
    (hc : (a.subst sv v).freeVars = []) :
    foldSubstE l a = a.subst sv v := by
  cases a with
  | const c => simp [Expr.subst, foldSubstE_const]
  | var x =>
      by_cases h : x = sv
      · subst h
        simp [Expr.subst, foldSubstE_var, hl]
      · simp [Expr.subst, h, Expr.freeVars] at hc

theorem mapExpr_of_subst_closed (l : List (String × Val)) (sv : String) (v : Val)
    (hl : lookupVar l sv = some v) (f : Formula)
    (hc : (f.subst sv v).freeVars = []) :
    f.mapExpr (foldSubstE l) = f.subst sv v := by
  induction f with
  | ne a c =>
      simp only [Formula.subst, Formula.freeVars, List.append_eq_nil] at hc
      simp [Formula.mapExpr, Formula.subst,
        foldSubstE_of_subst_closed l sv v hl a hc.1,
        foldSubstE_of_subst_closed l sv v hl c hc.2]
  | rel op a c =>
      simp only [Formula.subst, Formula.freeVars, List.append_eq_nil] at hc
      simp [Formula.mapExpr, Formula.subst,
        foldSubstE_of_subst_closed l sv v hl a hc.1,
        foldSubstE_of_subst_closed l sv v hl c hc.2]
  | not f ih =>
      simp only [Formula.subst, Formula.freeVars] at hc
      simp [Formula.mapExpr, Formula.subst, ih hc]
  | contradicts a =>
      simp only [Formula.subst, Formula.freeVars] at hc
      simp [Formula.mapExpr, Formula.subst,
        foldSubstE_of_subst_closed l sv v hl a hc]

/-! ### Soundness of the direct-evaluation fast path -/

theorem evalDirect_sound (t : Truth) (e : Evidence) (b : Bool)
    (h : Verifier.evalDirect t e = some b) :
    evaluateSub (substituteEv t.falsify e) = some b := by
  cases t with
  | analytic t =>
      simp only [Verifier.evalDirect] at h
      cases hl : lookupVar e.bindings t.lhs with
      | none => rw [hl] at h; exact absurd h (by simp)
      | some actual =>
          rw [hl] at h
          have hsub : substituteEv (Truth.falsify (.analytic t)) e =
              Formula.ne (.const actual) (.const t.rhs) := by
            rw [substituteEv_eq_mapExpr]
            simp [Truth.falsify, Analytic.falsify, Formula.mapExpr,
              foldSubstE_const, foldSubstE_var, hl]
          rw [hsub] at *
          simp only [evaluateSub, Formula.simplifyToBool, Expr.evalClosed]
          by_cases hne : actual = t.rhs
          · simp [hne] at h ⊢; simpa using h.symm
          · simp [hne] at h ⊢; simpa using h.symm
  | modal t =>
      simp only [Verifier.evalDirect] at h
      cases hl : lookupVar e.bindings t.state_var with
      | none => rw [hl] at h; exact absurd h (by simp)
      | some stateVal =>
          simp only [hl] at h
          cases hs : (t.invariant.subst t.state_var stateVal).simplifyToBool with
          | none => simp only [hs] at h; exact absurd h (by simp)
          | some s =>
              simp only [hs] at h
              have hb : b = !s := by simpa using h.symm
              have hclosed := simplifyToBool_some_closed _ _ hs
              have hmap := mapExpr_of_subst_closed e.bindings t.state_var stateVal hl
                t.invariant hclosed
              have hsub : substituteEv (Truth.falsify (.modal t)) e =
                  Formula.not (t.invariant.subst t.state_var stateVal) := by
                rw [substituteEv_eq_mapExpr]
                simp [Truth.falsify, Modal.falsify, Formula.mapExpr, hmap]
              rw [hsub]
              simp [evaluateSub, Formula.simplifyToBool, hs, hb]
  | empirical t => simp [Verifier.evalDirect] at h
  | probabilistic t => simp [Verifier.evalDirect] at h

/-! ### Claim theorems -/

/-- C3: for every Truth and Evidence pair, the two engine configurations
— `Verifier.verify` (direct-evaluation fast path first, symbolic
fallback second) and the purely symbolic `falsify` of falsification.py —
return the same verdict. -/
theorem verify_equiv_falsify (vf : Verifier) (t : Truth) (e : Evidence) :
    (vf.verify t e).verdict = (falsifyRun t e).verdict := by
  unfold Verifier.verify falsifyRun
  by_cases hm : missingVars t.falsify e = []
  · simp only [hm, ne_eq, not_true_eq_false, if_false, ite_false]
    cases hd : Verifier.evalDirect t e with
    | none => simp [hd]
    | some b =>
        have hsym := evalDirect_sound t e b hd
        cases b <;> simp [hd, hsym]
  · simp [hm]

/-! ### Reasoning-string decomposition lemmas -/

theorem fmtNames_mem_decomp (l : List String) (n : String) (h : n ∈ l) :
    ∃ pre post, fmtNames l = pre ++ n ++ post := by
  induction l with
  | nil => cases h
  | cons a rest ih =>
      cases rest with
      | nil =>
          have hn : n = a := by simpa using h
          exact ⟨"", "", by simp [fmtNames, hn, String.empty_append, String.append_empty]⟩
      | cons b rest2 =>
          rcases List.mem_cons.mp h with rfl | hmem
          · exact ⟨"", ", " ++ fmtNames (b :: rest2), by
              simp [fmtNames, String.empty_append, String.append_assoc]⟩
          · obtain ⟨pre, post, hp⟩ := ih hmem
            exact ⟨(a ++ ", ") ++ pre, post, by
              simp [fmtNames, hp, String.append_assoc]⟩

theorem missingReasoning_decomp (names : List String) (n : String) (h : n ∈ names) :
    ∃ pre post, "Missing evidence for: " ++ fmtSet names = pre ++ n ++ post := by
  obtain ⟨pre, post, hp⟩ := fmtNames_mem_decomp names n h
  exact ⟨("Missing evidence for: " ++ "\x7b") ++ pre, post ++ "\x7d", by
    simp only [fmtSet, hp, String.append_assoc]⟩

theorem missingVars_analytic (t : Analytic) (e : Evidence) :
    missingVars (Truth.falsify (.analytic t)) e =
      (if (lookupVar e.bindings t.lhs).isNone then [t.lhs] else []) := by
  by_cases h : (lookupVar e.bindings t.lhs).isNone <;>
    simp [missingVars, Truth.falsify, Analytic.falsify, Formula.freeVars,
      Expr.freeVars, h, List.filter, List.dedup]

theorem analytic_verdict_of_bound (vf : Verifier) (t : Analytic) (e : Evidence) (v : Val)
    (hv : lookupVar e.bindings t.lhs = some v) :
    (vf.verify (.analytic t) e).verdict =
      (if v = t.rhs then Verdict.survived else Verdict.killed) := by
  have hm : missingVars (Truth.falsify (.analytic t)) e = [] := by
    rw [missingVars_analytic]; simp [hv]
  unfold Verifier.verify
  by_cases hr : v = t.rhs <;>
    simp [hm, Verifier.evalDirect, hv, hr]

theorem analytic_uncertain_of_unbound (vf : Verifier) (t : Analytic) (e : Evidence)
    (hv : lookupVar e.bindings t.lhs = none) :
    (vf.verify (.analytic t) e).verdict = .uncertain := by
  have hm : missingVars (Truth.falsify (.analytic t)) e = [t.lhs] := by
    rw [missingVars_analytic]; simp [hv]
  unfold Verifier.verify
  simp [hm]

/-- C1: for every Analytic truth and every Evidence, if the evidence
binds the lhs variable name to a value equal to rhs, `verify` returns
SURVIVED; if it binds it to a strictly unequal value, KILLED; if the lhs
variable name is unbound, UNCERTAIN with the reasoning naming that
variable. -/
theorem analytic_verify_spec (vf : Verifier) (t : Analytic) (e : Evidence) :
    (∀ v, lookupVar e.bindings t.lhs = some v →
      (vf.verify (.analytic t) e).verdict =
        (if v = t.rhs then Verdict.survived else Verdict.killed)) ∧
    (lookupVar e.bindings t.lhs = none →
      (vf.verify (.analytic t) e).verdict = .uncertain ∧
      ∃ pre post, (vf.verify (.analytic t) e).reasoning = pre ++ t.lhs ++ post) := by
  refine ⟨fun v hv => ?_, fun hv => ?_⟩
  · have hm : missingVars (Truth.falsify (.analytic t)) e = [] := by
      rw [missingVars_analytic]; simp [hv]
    unfold Verifier.verify
    by_cases hr : v = t.rhs <;>
      simp [hm, Verifier.evalDirect, hv, hr]
  · have hm : missingVars (Truth.falsify (.analytic t)) e = [t.lhs] := by
      rw [missingVars_analytic]; simp [hv]
    refine ⟨by unfold Verifier.verify; simp [hm], ?_⟩
    have hdec := missingReasoning_decomp [t.lhs] t.lhs (by simp)
    obtain ⟨pre, post, hp⟩ := hdec
    refine ⟨pre, post, ?_⟩
    unfold Verifier.verify
    simp only [hm]
    rw [if_pos (by simp)]
    exact hp

/-- Witness for C1 at the concrete end-to-end scenarios: evidence
`result = 4` survives, `result = 5` is killed, empty evidence is
uncertain. -/
theorem analytic_verify_spec_witness :
    (Verifier.verify {} (.analytic { statement := "2+2=4", lhs := "result", rhs := .num 4 })
      { bindings := [("result", .num 4)] }).verdict = .survived ∧
    (Verifier.verify {} (.analytic { statement := "2+2=4", lhs := "result", rhs := .num 4 })
      { bindings := [("result", .num 5)] }).verdict = .killed ∧
    (Verifier.verify {} (.analytic { statement := "2+2=4", lhs := "result", rhs := .num 4 })
      { bindings := [] }).verdict = .uncertain := by
  refine ⟨?_, ?_, ?_⟩
  · have h := (analytic_verify_spec {}
      { statement := "2+2=4", lhs := "result", rhs := .num 4 }
      { bindings := [("result", .num 4)] }).1 (.num 4) rfl
    simpa using h
  · have h := (analytic_verify_spec {}
      { statement := "2+2=4", lhs := "result", rhs := .num 4 }
      { bindings := [("result", .num 5)] }).1 (.num 5) rfl
    simpa using h
  · exact ((analytic_verify_spec {}
      { statement := "2+2=4", lhs := "result", rhs := .num 4 }
      { bindings := [] }).2 rfl).1

/-- C2: for every Truth and Evidence, if any free variable of the
constructed falsification form has no binding in the evidence, `verify`
returns UNCERTAIN with the missing variable names in the reasoning and
returns immediately after the completeness check: the trace consists of
exactly the form-construction, form-description and evidence entries
followed by the missing-evidence entry, with no substitution or
evaluation entry.  The embedded `verify` is a total function, so no
exception can be raised. -/
theorem missing_evidence_fast_fail (vf : Verifier) (t : Truth) (e : Evidence)
    (h : missingVars t.falsify e ≠ []) :
    (vf.verify t e).verdict = .uncertain ∧
    (∀ n ∈ missingVars t.falsify e,
      ∃ pre post, (vf.verify t e).reasoning = pre ++ n ++ post) ∧
    (vf.verify t e).trace =
      [ "Constructing falsification form for: " ++ t.statement
      , "Falsification form: " ++ t.falsify.description
      , "Evidence bindings: " ++ renderBindings e.bindings
      , "Cannot evaluate: missing " ++ fmtSet (missingVars t.falsify e) ] := by
  refine ⟨by simp [Verifier.verify, h], fun n hn => ?_, by simp [Verifier.verify, h]⟩
  have hr : (vf.verify t e).reasoning =
      "Missing evidence for: " ++ fmtSet (missingVars t.falsify e) := by
    simp [Verifier.verify, h]
  rw [hr]
  exact missingReasoning_decomp _ n hn

/-- Witness for C2: an Analytic claim over `result` checked against
empty evidence has a non-empty missing set, and `verify` reports
UNCERTAIN with `result` named in the reasoning. -/
theorem missing_evidence_fast_fail_witness :
    missingVars
      (Truth.falsify (.analytic { statement := "2+2=4", lhs := "result", rhs := .num 4 }))
      { bindings := [] } ≠ [] ∧
    (Verifier.verify {} (.analytic { statement := "2+2=4", lhs := "result", rhs := .num 4 })
      { bindings := [] }).verdict = .uncertain ∧
    (∃ pre post,
      (Verifier.verify {} (.analytic { statement := "2+2=4", lhs := "result", rhs := .num 4 })
        { bindings := [] }).reasoning = pre ++ "result" ++ post) := by
  have h : missingVars
      (Truth.falsify (.analytic { statement := "2+2=4", lhs := "result", rhs := .num 4 }))
      { bindings := [] } ≠ [] := by decide
  have hmain := missing_evidence_fast_fail {}
    (.analytic { statement := "2+2=4", lhs := "result", rhs := .num 4 })
    { bindings := [] } h
  exact ⟨h, hmain.1, hmain.2.1 "result" (by decide)⟩

/-- C4: `check_threshold` evaluates `value <direction> threshold` with
the five operators; at the boundary, a value equal to the threshold
fails direction `>` (so the predicate-verification path yields KILLED)
and satisfies direction `>=` (so it yields SURVIVED). -/
theorem check_threshold_boundary (s m : String) (thr : ℚ) :
    (∀ q : ℚ, (Probabilistic.mk s m thr .gt).check_threshold q = decide (q > thr)) ∧
    (∀ q : ℚ, (Probabilistic.mk s m thr .ge).check_threshold q = decide (q ≥ thr)) ∧
    (∀ q : ℚ, (Probabilistic.mk s m thr .lt).check_threshold q = decide (q < thr)) ∧
    (∀ q : ℚ, (Probabilistic.mk s m thr .le).check_threshold q = decide (q ≤ thr)) ∧
    (∀ q : ℚ, (Probabilistic.mk s m thr .eq).check_threshold q = decide (q = thr)) ∧
    (Verifier.verify_with_predicate {} (.probabilistic (Probabilistic.mk s m thr .gt))
      (.num thr) "check_threshold").verdict = .killed ∧
    (Verifier.verify_with_predicate {} (.probabilistic (Probabilistic.mk s m thr .ge))
      (.num thr) "check_threshold").verdict = .survived := by
  refine ⟨fun q => rfl, fun q => rfl, fun q => rfl, fun q => rfl, fun q => rfl, ?_, ?_⟩
  · simp [Verifier.verify_with_predicate, Truth.getPredicate,
      Probabilistic.check_threshold_val, Probabilistic.check_threshold, lt_irrefl]
  · simp [Verifier.verify_with_predicate, Truth.getPredicate,
      Probabilistic.check_threshold_val, Probabilistic.check_threshold, le_refl]

/-- C7: the predicate-based verification path returns SURVIVED when the
named check method returns true, KILLED when it returns false, and
UNCERTAIN when the method is absent or raises; in the raising case the
exception message is embedded in the reasoning and — the embedded
function being total on `VerdictResult` — never propagated. -/
theorem predicate_path_spec (vf : Verifier) (t : Truth) (value : Val) (pname : String) :
    (t.getPredicate pname = none →
      (vf.verify_with_predicate t value pname).verdict = .uncertain) ∧
    (∀ p, t.getPredicate pname = some p →
      (p value = .ok true →
        (vf.verify_with_predicate t value pname).verdict = .survived) ∧
      (p value = .ok false →
        (vf.verify_with_predicate t value pname).verdict = .killed) ∧
      (∀ msg, p value = .error msg →
        (vf.verify_with_predicate t value pname).verdict = .uncertain ∧
        ∃ pre post,
          (vf.verify_with_predicate t value pname).reasoning = pre ++ msg ++ post)) := by
  refine ⟨fun hnone => ?_, fun p hp => ⟨fun hok => ?_, fun hko => ?_, fun msg herr => ?_⟩⟩
  · simp [Verifier.verify_with_predicate, hnone]
  · simp [Verifier.verify_with_predicate, hp, hok]
  · simp [Verifier.verify_with_predicate, hp, hko]
  · refine ⟨by simp [Verifier.verify_with_predicate, hp, herr],
      "Predicate evaluation failed: ", "", ?_⟩
    simp [Verifier.verify_with_predicate, hp, herr, String.append_empty]

/-- Witness for C7: a Probabilistic truth checked with a string value
makes its `check_threshold` raise, yielding UNCERTAIN with the message
embedded; an Analytic truth has no `check_threshold` method, yielding
UNCERTAIN; the accepted and violated cases yield SURVIVED and KILLED. -/
theorem predicate_path_spec_witness :
    (Verifier.verify_with_predicate {}
      (.probabilistic (Probabilistic.mk "acc > 0.6" "accuracy" (3/5) .gt))
      (.str "oops") "check_threshold").verdict = .uncertain ∧
    (∃ pre post,
      (Verifier.verify_with_predicate {}
        (.probabilistic (Probabilistic.mk "acc > 0.6" "accuracy" (3/5) .gt))
        (.str "oops") "check_threshold").reasoning =
          pre ++ "unsupported comparison for value: oops" ++ post) ∧
    (Verifier.verify_with_predicate {}
      (.analytic { statement := "2+2=4", lhs := "result", rhs := .num 4 })
      (.num 4) "check_threshold").verdict = .uncertain ∧
    (Verifier.verify_with_predicate {}
      (.probabilistic (Probabilistic.mk "acc > 0.6" "accuracy" (3/5) .gt))
      (.num (3/4)) "check_threshold").verdict = .survived ∧
    (Verifier.verify_with_predicate {}
      (.probabilistic (Probabilistic.mk "acc > 0.6" "accuracy" (3/5) .gt))
      (.num (11/20)) "check_threshold").verdict = .killed := by
  have herr := ((predicate_path_spec {}
    (.probabilistic (Probabilistic.mk "acc > 0.6" "accuracy" (3/5) .gt))
    (.str "oops") "check_threshold").2 _ rfl).2.2
    "unsupported comparison for value: oops" (by rfl)
  have habsent := (predicate_path_spec {}
    (.analytic { statement := "2+2=4", lhs := "result", rhs := .num 4 })
    (.num 4) "check_threshold").1 rfl
  have hok := ((predicate_path_spec {}
    (.probabilistic (Probabilistic.mk "acc > 0.6" "accuracy" (3/5) .gt))
    (.num (3/4)) "check_threshold").2 _ rfl).1
    (by simp [Probabilistic.check_threshold_val, Probabilistic.check_threshold]; norm_num)
  have hko := (((predicate_path_spec {}
    (.probabilistic (Probabilistic.mk "acc > 0.6" "accuracy" (3/5) .gt))
    (.num (11/20)) "check_threshold").2 _ rfl).2.1)
    (by simp [Probabilistic.check_threshold_val, Probabilistic.check_threshold]; norm_num)
  exact ⟨herr.1, herr.2, habsent, hok, hko⟩

/-- C10: for every Empirical truth whose `expected_predicate` is `None`,
`check_observation` returns True for every observed value, so the
predicate-based verification path always yields SURVIVED. -/
theorem empirical_no_predicate_survives (vf : Verifier) (t : Empirical) (value : Val)
    (h : t.expected_predicate = none) :
    t.check_observation value = .ok true ∧
    (vf.verify_with_predicate (.empirical t) value "check_observation").verdict
      = .survived := by
  have hco : t.check_observation value = .ok true := by
    simp [Empirical.check_observation, h]
  refine ⟨hco, ?_⟩
  simp [Verifier.verify_with_predicate, Truth.getPredicate, hco]

/-- Witness for C10: the default Empirical truth (no predicate) accepts
an arbitrary string observation and the predicate path survives. -/
theorem empirical_no_predicate_survives_witness :
    Empirical.check_observation { statement := "api endpoint returns 200" }
      (.str "anything") = .ok true ∧
    (Verifier.verify_with_predicate {}
      (.empirical { statement := "api endpoint returns 200" })
      (.str "anything") "check_observation").verdict = .survived :=
  empirical_no_predicate_survives {} { statement := "api endpoint returns 200" }
    (.str "anything") rfl

/-- C9: verification is deterministic — two calls of `verify` on the
same (Truth, Evidence) pair, even through differently configured
verifier instances, yield identical verdict, identical reasoning and
identical falsification-form description.  The embedded `verify` is a
pure function of the pair, matching the source, which reads no ambient
state. -/
theorem verify_deterministic (vf vf' : Verifier) (t : Truth) (e : Evidence) :
    (vf.verify t e).verdict = (vf'.verify t e).verdict ∧
    (vf.verify t e).reasoning = (vf'.verify t e).reasoning ∧
    (vf.verify t e).form.map FalsificationForm.description =
      (vf'.verify t e).form.map FalsificationForm.description :=
  ⟨rfl, rfl, rfl⟩

theorem append_six_decomp_second (a s b r c d : String) :
    ∃ pre post, a ++ s ++ b ++ r ++ c ++ d = pre ++ s ++ post :=
  ⟨a, b ++ r ++ c ++ d, by simp only [String.append_assoc]⟩

theorem killed_msg_decomp (s b r c d : String) :
    ∃ pre post, "Claim KILLED: " ++ s ++ b ++ r ++ c ++ d = pre ++ "KILLED" ++ post :=
  ⟨"Claim ", ": " ++ s ++ b ++ r ++ c ++ d, by
    rw [show ("Claim KILLED: " : String) = "Claim " ++ "KILLED" ++ ": " from rfl]
    simp only [String.append_assoc]⟩

/-- C5: the `verified` decorator applied with a factory producing
`Analytic(lhs="result", rhs=4)`: a wrapped function returning
`{"result": 4}` returns a SURVIVED result, a wrapped function returning
`{"result": 5}` raises an assertion failure whose message contains the
string "KILLED" and the claim's statement; and an error is raised only
on a KILLED verdict, so SURVIVED and UNCERTAIN return the result. -/
theorem verified_decorator_spec (s fname : String) :
    (∃ r, verifiedWrapper (.analytic { statement := s, lhs := "result", rhs := .num 4 })
        fname (.retDict [("result", .num 4)]) = .ok r ∧ r.verdict = .survived) ∧
    (∃ msg, verifiedWrapper (.analytic { statement := s, lhs := "result", rhs := .num 4 })
        fname (.retDict [("result", .num 5)]) = .error msg ∧
      (∃ pre post, msg = pre ++ "KILLED" ++ post) ∧
      (∃ pre post, msg = pre ++ s ++ post)) ∧
    (∀ (t : Truth) (fn : String) (ret : FuncReturn) (msg : String),
      verifiedWrapper t fn ret = .error msg →
      (Verifier.verify {} t
        { bindings := coerceBindings ret,
          source := "test function: " ++ fn }).verdict = .killed) := by
  refine ⟨?_, ?_, ?_⟩
  · have hs : (Verifier.verify {}
        (.analytic { statement := s, lhs := "result", rhs := .num 4 })
        { bindings := [("result", .num 4)],
          source := "test function: " ++ fname }).verdict = .survived := by
      have h := analytic_verdict_of_bound {}
        { statement := s, lhs := "result", rhs := .num 4 }
        { bindings := [("result", .num 4)], source := "test function: " ++ fname }
        (.num 4) rfl
      simpa using h
    refine ⟨_, ?_, hs⟩
    simp [verifiedWrapper, coerceBindings, hs]
  · have hk : (Verifier.verify {}
        (.analytic { statement := s, lhs := "result", rhs := .num 4 })
        { bindings := [("result", .num 5)],
          source := "test function: " ++ fname }).verdict = .killed := by
      have h := analytic_verdict_of_bound {}
        { statement := s, lhs := "result", rhs := .num 4 }
        { bindings := [("result", .num 5)], source := "test function: " ++ fname }
        (.num 5) rfl
      simpa using h
    refine ⟨"Claim KILLED: " ++ s ++ "\nReasoning: "
        ++ (Verifier.verify {}
            (.analytic { statement := s, lhs := "result", rhs := .num 4 })
            { bindings := [("result", .num 5)],
              source := "test function: " ++ fname }).reasoning
        ++ "\nEvidence: " ++ renderBindings [("result", .num 5)], ?_, ?_, ?_⟩
    · simp [verifiedWrapper, coerceBindings, hk, Truth.statement]
    · exact killed_msg_decomp s _ _ _ _
    · exact append_six_decomp_second "Claim KILLED: " s _ _ _ _
  · intro t fn ret msg h
    by_contra hk
    simp [verifiedWrapper, hk,
      show ({} : Verifier).strict = false from rfl] at h

/-- Witness for C5: at the concrete statement "2+2=4" and function name
"test_addition", the SURVIVED case returns a result object and the
KILLED case raises a message containing "KILLED" and the statement. -/
theorem verified_decorator_spec_witness :
    (∃ r, verifiedWrapper
        (.analytic { statement := "2+2=4", lhs := "result", rhs := .num 4 })
        "test_addition" (.retDict [("result", .num 4)]) = .ok r ∧
      r.verdict = .survived) ∧
    (∃ msg, verifiedWrapper
        (.analytic { statement := "2+2=4", lhs := "result", rhs := .num 4 })
        "test_addition" (.retDict [("result", .num 5)]) = .error msg ∧
      (∃ pre post, msg = pre ++ "KILLED" ++ post) ∧
      (∃ pre post, msg = pre ++ "2+2=4" ++ post)) := by
  have h := verified_decorator_spec "2+2=4" "test_addition"
  exact ⟨h.1, h.2.1⟩

/-- C6 (code evaluation): the engine's strict flag exists but is
unreachable from the decorator path — the wrapper constructs its own
verifier, whose strict flag is false, so an UNCERTAIN verdict returns a
result object instead of raising; and strict has no effect on direct
`verify` calls, which ignore the flag entirely. -/
theorem strict_mode_unreachable :
    ({} : Verifier).strict = false ∧
    (∀ (b : Bool) (t : Truth) (e : Evidence),
      (Verifier.mk b).verify t e = (Verifier.mk false).verify t e) ∧
    (∃ r, verifiedWrapper
        (.analytic { statement := "2+2=4", lhs := "result", rhs := .num 4 })
        "test_addition" .retNone = .ok r ∧ r.verdict = .uncertain) := by
  refine ⟨rfl, fun b t e => rfl, ?_⟩
  have hu : (Verifier.verify {}
      (.analytic { statement := "2+2=4", lhs := "result", rhs := .num 4 })
      { bindings := [], source := "test function: test_addition" }).verdict
        = .uncertain := by
    have h := analytic_uncertain_of_unbound {}
      { statement := "2+2=4", lhs := "result", rhs := .num 4 }
      { bindings := [], source := "test function: test_addition" } rfl
    simpa using h
  refine ⟨_, ?_, hu⟩
  simp [verifiedWrapper, coerceBindings, hu,
    show ({} : Verifier).strict = false from rfl]

/-- C8: the scoped claim tracker runs verification on scope exit over
the evidence the block accumulated, stores the result on the handle,
and passes any exception raised inside the block through to the caller
unchanged — the result is populated whether or not the block raised. -/
theorem claim_scope_spec (t : Truth) (body : Evidence → Evidence × Option String) :
    (runClaim t body).1.result =
      some (Verifier.verify {} t (body { bindings := [] }).1) ∧
    (runClaim t body).2 = (body { bindings := [] }).2 := by
  rcases hb : body { bindings := [] } with ⟨fe, ex⟩
  constructor <;> simp [runClaim, hb]

end Veritas
